import Mathlib

set_option maxRecDepth 40000

/-!
Verification of the `ehttp` multipart/form-data encoder
(`src/ehttp/src/multipart.rs`) and of the multipart request constructor
(`src/ehttp/src/types.rs`).

Modelling conventions (shallow embedding):
* Byte buffers (`Vec<u8>`, `&str` contents, header strings) are modelled as
  `List Char`; string literals from the source appear as `"…".data`.
* `io::Result<T>` is modelled as `Except IOError T`.  Writes into the
  in-memory `Vec<u8>` buffer cannot fail in Rust, so they are modelled as
  pure appends; the `Except` layer remains on the operations that carry it
  in the source.
* External collaborators are passed explicitly: the random boundary token
  (generated by `random_alphanumeric`, a string of digits of length
  `BOUNDARY_LEN`), the filesystem open (`File::open`), and the
  extension→MIME lookup (`mime_guess::from_path`).  A `Read` stream is
  modelled by its read-to-completion outcome: either all its bytes or an
  I/O error.
-/

namespace Ehttp

/-- `const BOUNDARY_LEN: usize = 29;` — requested length of the boundary token. -/
def BOUNDARY_LEN : Nat := 29

/-- The CRLF line terminator `b"\r\n"`. -/
def crlf : List Char := ['\r', '\n']

/-- The 29-dash literal that starts every delimiter line
(`write_boundary` and the closing delimiter in `finish`). -/
def delimDashes : List Char := "-----------------------------".data

/-- The 27-dash literal embedded in the content-type string built by `finish`. -/
def ctDashes : List Char := "---------------------------".data

/-- The default MIME type `mime::APPLICATION_OCTET_STREAM`. -/
def octetStream : List Char := "application/octet-stream".data

/-- An I/O error (`std::io::Error`), abstract payload. -/
structure IOError where
  msg : List Char
  deriving DecidableEq, Repr

/-- The builder state of `MultipartBuilder` (multipart.rs, lines 28–33). -/
structure MultipartBuilder where
  boundary : List Char
  inner : List Char
  data_written : Bool
  deriving DecidableEq, Repr

/-- `MultipartBuilder::new`, with the externally generated random token passed
in explicitly (token generation is an external randomness collaborator;
the generator draws `BOUNDARY_LEN` digits `0`–`9`). -/
def MultipartBuilder.new (boundary : List Char) : MultipartBuilder :=
  { boundary := boundary, inner := [], data_written := false }

/-- `MultipartBuilder::write_boundary` (multipart.rs, lines 83–93). -/
def MultipartBuilder.write_boundary (b : MultipartBuilder) : MultipartBuilder :=
  let b := if b.data_written then { b with inner := b.inner ++ crlf } else b
  { b with inner := b.inner ++ delimDashes ++ b.boundary ++ crlf }

/-- `MultipartBuilder::write_field_headers` (multipart.rs, lines 94–115). -/
def MultipartBuilder.write_field_headers (b : MultipartBuilder) (name : List Char)
    (filename : Option (List Char)) (content_type : Option (List Char)) :
    MultipartBuilder :=
  let b := b.write_boundary
  let b := if b.data_written then b else { b with data_written := true }
  let b := { b with inner :=
    b.inner ++ "Content-Disposition: form-data; name=\"".data ++ name ++ "\"".data }
  let b := match filename with
    | some fn => { b with inner := b.inner ++ "; filename=\"".data ++ fn ++ "\"".data }
    | none => b
  let b := match content_type with
    | some ct => { b with inner := b.inner ++ crlf ++ "Content-Type: ".data ++ ct }
    | none => b
  { b with inner := b.inner ++ crlf ++ crlf }

/-- `MultipartBuilder::add_text` (multipart.rs, lines 54–58). -/
def MultipartBuilder.add_text (b : MultipartBuilder) (name text : List Char) :
    Except IOError MultipartBuilder :=
  let b := b.write_field_headers name none none
  .ok { b with inner := b.inner ++ text }

/-- `MultipartBuilder::add_stream` (multipart.rs, lines 70–82).  The `Read`
stream is modelled by its read-to-completion outcome. -/
def MultipartBuilder.add_stream (b : MultipartBuilder)
    (stream : Except IOError (List Char)) (name : List Char)
    (filename : Option (List Char)) (content_type : Option (List Char)) :
    Except IOError MultipartBuilder :=
  let ct := some (content_type.getD octetStream)
  let b := b.write_field_headers name filename ct
  match stream with
  | .ok data => .ok { b with inner := b.inner ++ data }
  | .error e => .error e

/-- A filesystem path, abstracted to what `multipart.rs` reads from it:
its final file-name component (`opt_filename`), if any. -/
structure Path where
  fileNameOpt : Option (List Char)
  deriving DecidableEq, Repr

/-- `mime_filename` (multipart.rs, lines 22–26): extension→MIME inference is
the external `mime_guess` collaborator `guess`; `first_or_octet_stream`
defaults to the generic binary type. -/
def mime_filename (guess : Path → Option (List Char)) (path : Path) :
    (List Char) × Option (List Char) :=
  ((guess path).getD octetStream, path.fileNameOpt)

/-- `MultipartBuilder::add_file` (multipart.rs, lines 63–68); `File::open` is
the external collaborator `openFile`. -/
def MultipartBuilder.add_file (b : MultipartBuilder)
    (openFile : Path → Except IOError (List Char))
    (guess : Path → Option (List Char))
    (name : List Char) (path : Path) : Except IOError MultipartBuilder :=
  let cf := mime_filename guess path
  match openFile path with
  | .error e => .error e
  | .ok data => b.add_stream (.ok data) name cf.2 (some cf.1)

/-- `MultipartBuilder::finish` (multipart.rs, lines 123–141). -/
def MultipartBuilder.finish (b : MultipartBuilder) :
    Except IOError ((List Char) × (List Char)) :=
  let b := if b.data_written then { b with inner := b.inner ++ crlf } else b
  let inner := b.inner ++ delimDashes ++ b.boundary ++ "--\r\n".data
  .ok ("multipart/form-data; boundary=".data ++ ctDashes ++ b.boundary, inner)

/-- The content-type string returned by `finish` for boundary token `bd`. -/
def ctString (bd : List Char) : List Char :=
  "multipart/form-data; boundary=".data ++ ctDashes ++ bd

/-! ### types.rs: `Method`, `Request`, and `Request::multipart` -/

/-- The `Method` enumeration (types.rs, lines 24–43). -/
inductive Method where
  | Get | Head | Post | Put | Delete | Connect | Options | Trace | Patch
  deriving DecidableEq, Repr

/-- The `Display` rendering of `Method` (types.rs, lines 45–59). -/
def Method.toStr : Method → List Char
  | .Get => "GET".data
  | .Head => "HEAD".data
  | .Post => "POST".data
  | .Put => "PUT".data
  | .Delete => "DELETE".data
  | .Connect => "CONNECT".data
  | .Options => "OPTIONS".data
  | .Trace => "TRACE".data
  | .Patch => "PATCH".data

/-- One step of map insertion: bind `k` to `v`, overwriting an existing
binding of `k` and otherwise appending. -/
def insertHeader (m : List ((List Char) × (List Char))) (k v : List Char) :
    List ((List Char) × (List Char)) :=
  if m.any (fun p => p.1 = k) then m.map (fun p => if p.1 = k then (k, v) else p)
  else m ++ [(k, v)]

/-- Modelled from the spec: `crate::headers` lives in the crate root, which is
not under `src/`; per the spec (§1 "header-map construction" and the
`Request.headers` examples in types.rs) it builds the request's header map
from the given (key, value) pairs.  Modelled as a finite map built by
inserting each pair in order. -/
def headersOf (pairs : List ((List Char) × (List Char))) :
    List ((List Char) × (List Char)) :=
  List.foldl (fun m p => insertHeader m p.1 p.2) [] pairs

/-- Look a key up in a header map. -/
def lookupHeader (m : List ((List Char) × (List Char))) (k : List Char) :
    Option (List Char) :=
  (m.find? (fun p => p.1 = k)).map (fun p => p.2)

/-- The `Request` record (types.rs, lines 8–21). -/
structure Request where
  method : List Char
  url : List Char
  body : List Char
  headers : List ((List Char) × (List Char))
  deriving DecidableEq, Repr

/-- `Request::multipart` (types.rs, lines 73–86). -/
def Request.multipart (url : List Char) (builder : MultipartBuilder) :
    Except IOError Request :=
  match builder.finish with
  | .error e => .error e
  | .ok ct_data =>
    .ok { method := Method.Post.toStr, url := url, body := ct_data.2,
          headers := headersOf
            [("Accept".data, "*/*".data), ("Content-Type".data, ct_data.1)] }

/-! ### Field sequences and the closed form of the produced body

`add_file` reduces to `add_stream` (proved below), so a build is a sequence
of text/stream fields followed by `finish`. -/

instance exceptDecEq {ε α : Type} [DecidableEq ε] [DecidableEq α] :
    DecidableEq (Except ε α) := fun a b =>
  match a, b with
  | .ok x, .ok y => if h : x = y then isTrue (by simp [h]) else isFalse (by simp [h])
  | .error x, .error y =>
    if h : x = y then isTrue (by simp [h]) else isFalse (by simp [h])
  | .ok _, .error _ => isFalse (by simp)
  | .error _, .ok _ => isFalse (by simp)

/-- One field-adding call, by the data it feeds to the builder. -/
inductive Field where
  | text (name content : List Char)
  | stream (data : Except IOError (List Char)) (name : List Char)
      (filename : Option (List Char)) (content_type : Option (List Char))
  deriving DecidableEq, Repr

/-- Run one field-adding call. -/
def addField (b : MultipartBuilder) : Field → Except IOError MultipartBuilder
  | .text n t => b.add_text n t
  | .stream d n fn ct => b.add_stream d n fn ct

/-- Run a sequence of field-adding calls, stopping at the first failure. -/
def runAdds (b : MultipartBuilder) : List Field → Except IOError MultipartBuilder
  | [] => .ok b
  | f :: fs =>
    match addField b f with
    | .error e => .error e
    | .ok b2 => runAdds b2 fs

/-- The `Content-Disposition` header line emitted by `write_field_headers`. -/
def dispLine (name : List Char) (filename : Option (List Char)) : List Char :=
  "Content-Disposition: form-data; name=\"".data ++ name ++ "\"".data ++
    (match filename with
     | some fn => "; filename=\"".data ++ fn ++ "\"".data
     | none => [])

/-- The optional `Content-Type` header continuation emitted by
`write_field_headers`. -/
def ctPart : Option (List Char) → List Char
  | some ct => crlf ++ "Content-Type: ".data ++ ct
  | none => []

/-- The header block a field emits after its delimiter line, up to but not
including the blank line that terminates the headers. -/
def Field.headerCore : Field → List Char
  | .text n _ => dispLine n none
  | .stream _ n fn ct => dispLine n fn ++ ctPart (some (ct.getD octetStream))

/-- The raw content bytes of a field (its text, or the bytes its stream
yields; only successfully-read streams occur in a successful build). -/
def Field.contentOf : Field → List Char
  | .text _ t => t
  | .stream d _ _ _ => d.toOption.getD []

/-- Everything one field contributes to the body, from its delimiter line to
the end of its content (no leading or trailing CRLF separator). -/
def fieldChunk (bd : List Char) (f : Field) : List Char :=
  delimDashes ++ bd ++ crlf ++ f.headerCore ++ crlf ++ crlf ++ f.contentOf

/-- Join chunks with a single separator between consecutive chunks. -/
def sepJoin (sep : List Char) : List (List Char) → List Char
  | [] => []
  | [x] => x
  | x :: y :: xs => x ++ sep ++ sepJoin sep (y :: xs)

/-- The bytes a sequence of successful field-adding calls appends to the
buffer, given the `data_written` flag at the start. -/
def joinFrom (dw : Bool) (bd : List Char) : List Field → List Char
  | [] => []
  | f :: fs => (if dw then crlf else []) ++ fieldChunk bd f ++ joinFrom true bd fs

/-- The body produced by `finish` after the fields `fs`, minus its leading
`delimDashes ++ bd`; shaped to mirror the decoder's recursion. -/
def tailEnc (bd : List Char) : List Field → List Char
  | [] => "--\r\n".data
  | f :: fs =>
    crlf ++ f.headerCore ++ crlf ++ crlf ++ f.contentOf ++ crlf ++
      delimDashes ++ bd ++ tailEnc bd fs

/-! ### A decoder: split on delimiter lines, strip header blocks -/

/-- Split a list at the first occurrence of `sep`: return the part strictly
before it and the part strictly after it. -/
def extractUpTo (sep : List Char) : List Char → Option ((List Char) × (List Char))
  | [] => if sep.isEmpty then some ([], []) else none
  | c :: cs =>
    if sep.isPrefixOf (c :: cs) then some ([], (c :: cs).drop sep.length)
    else
      match extractUpTo sep cs with
      | some pr => some (c :: pr.1, pr.2)
      | none => none

/-- Parse the remainder of a body after a delimiter core `delimDashes ++ bd`:
either the closing `--\r\n`, or a CRLF, a header block terminated by a blank
line, the content up to the next CRLF-plus-delimiter-core, and the rest.
Returns the list of field contents.  `fuel` bounds the recursion. -/
def parseParts (bd : List Char) : Nat → List Char → Option (List (List Char))
  | 0, _ => none
  | fuel + 1, r =>
    if r = "--\r\n".data then some []
    else if crlf.isPrefixOf r then
      match extractUpTo (crlf ++ crlf) (r.drop 2) with
      | none => none
      | some hc =>
        match extractUpTo (crlf ++ delimDashes ++ bd) hc.2 with
        | none => none
        | some cr =>
          match parseParts bd fuel cr.2 with
          | none => none
          | some rest => some (cr.1 :: rest)
    else none

/-- Decode a multipart body produced with boundary token `bd`: check and
strip the first delimiter core, then split the rest on the delimiter lines,
stripping each part's header block. -/
def decodeBody (bd body : List Char) : Option (List (List Char)) :=
  if (delimDashes ++ bd).isPrefixOf body then
    parseParts bd (body.length + 1) (body.drop (delimDashes ++ bd).length)
  else none

/-- Cleanliness of one field: its header block contains no blank line before
its terminator, and its content does not contain a CRLF followed by a
delimiter core, except the one the encoder appends after it.  (Both stated
as first-occurrence equations on `extractUpTo`, so they are decidable.) -/
def cleanField (bd : List Char) (f : Field) : Prop :=
  extractUpTo (crlf ++ crlf) (f.headerCore ++ (crlf ++ crlf)) =
    some (f.headerCore, []) ∧
  extractUpTo (crlf ++ delimDashes ++ bd)
    (f.contentOf ++ (crlf ++ delimDashes ++ bd)) = some (f.contentOf, [])

instance (bd : List Char) (f : Field) : Decidable (cleanField bd f) := by
  unfold cleanField
  infer_instance

/-! ### Concrete sample values (used to exercise the theorems below) -/

/-- A small sample boundary token. -/
def sampleBd : List Char := ['1']

/-- A sample boundary token of the shape `random_alphanumeric(BOUNDARY_LEN)`
produces: 29 digits. -/
def sampleBd29 : List Char := "01234567890123456789012345678".data

/-- A sample field sequence: one text field, one stream field. -/
def sampleFields : List Field :=
  [Field.text "msg".data "hi".data,
   Field.stream (.ok "DATA".data) "f".data (some "f.bin".data) none]

/-- The builder obtained by running `sampleFields` on a fresh builder. -/
def sampleRunB : MultipartBuilder :=
  (runAdds (MultipartBuilder.new sampleBd) sampleFields).toOption.getD
    (MultipartBuilder.new sampleBd)

/-- The `(content_type, body)` pair produced by finishing `sampleRunB`. -/
def sampleFin : (List Char) × (List Char) :=
  sampleRunB.finish.toOption.getD ([], [])

/-- The `(content_type, body)` pair of an empty build. -/
def sampleFin0 : (List Char) × (List Char) :=
  (MultipartBuilder.new sampleBd).finish.toOption.getD ([], [])

/-- Builder after one sample `add_text`. -/
def sampleTextB : MultipartBuilder :=
  ((MultipartBuilder.new sampleBd).add_text "a".data "b".data).toOption.getD
    (MultipartBuilder.new sampleBd)

/-- Builder after one sample `add_stream`. -/
def sampleStreamB : MultipartBuilder :=
  ((MultipartBuilder.new sampleBd).add_stream (.ok "D".data) "s".data
    none none).toOption.getD (MultipartBuilder.new sampleBd)

/-- A sample filesystem in which every open succeeds with content `"F"`. -/
def sampleOpen : Path → Except IOError (List Char) := fun _ => .ok "F".data

/-- A sample MIME lookup that never infers a type. -/
def sampleGuess : Path → Option (List Char) := fun _ => none

/-- A sample path. -/
def samplePath : Path := { fileNameOpt := some "f.bin".data }

/-- Builder after one sample `add_file`. -/
def sampleFileB : MultipartBuilder :=
  ((MultipartBuilder.new sampleBd).add_file sampleOpen sampleGuess
    "g".data samplePath).toOption.getD (MultipartBuilder.new sampleBd)

/-! ### Normal forms of the builder operations -/

theorem write_boundary_eq (b : MultipartBuilder) :
    b.write_boundary =
      { boundary := b.boundary, data_written := b.data_written,
        inner := b.inner ++ (if b.data_written then crlf else []) ++
          delimDashes ++ b.boundary ++ crlf } := by
  obtain ⟨bo, i, dw⟩ := b
  cases dw <;> simp [MultipartBuilder.write_boundary]

theorem write_field_headers_eq (b : MultipartBuilder) (n : List Char)
    (fn ct : Option (List Char)) :
    b.write_field_headers n fn ct =
      { boundary := b.boundary, data_written := true,
        inner := b.inner ++ (if b.data_written then crlf else []) ++
          delimDashes ++ b.boundary ++ crlf ++
          dispLine n fn ++ ctPart ct ++ crlf ++ crlf } := by
  obtain ⟨bo, i, dw⟩ := b
  cases dw <;> cases fn <;> cases ct <;>
    simp [MultipartBuilder.write_field_headers, MultipartBuilder.write_boundary,
      dispLine, ctPart, List.append_assoc]

theorem add_text_eq (b : MultipartBuilder) (n t : List Char) :
    b.add_text n t =
      .ok { boundary := b.boundary, data_written := true,
            inner := b.inner ++ (if b.data_written then crlf else []) ++
              delimDashes ++ b.boundary ++ crlf ++
              dispLine n none ++ crlf ++ crlf ++ t } := by
  simp [MultipartBuilder.add_text, write_field_headers_eq, ctPart,
    List.append_assoc]

theorem add_stream_ok_eq (b : MultipartBuilder) (d n : List Char)
    (fn ct : Option (List Char)) :
    b.add_stream (.ok d) n fn ct =
      .ok { boundary := b.boundary, data_written := true,
            inner := b.inner ++ (if b.data_written then crlf else []) ++
              delimDashes ++ b.boundary ++ crlf ++
              dispLine n fn ++ ctPart (some (ct.getD octetStream)) ++
              crlf ++ crlf ++ d } := by
  simp [MultipartBuilder.add_stream, write_field_headers_eq, List.append_assoc]

theorem add_stream_error_eq (b : MultipartBuilder) (e : IOError) (n : List Char)
    (fn ct : Option (List Char)) :
    b.add_stream (.error e) n fn ct = .error e := by
  simp [MultipartBuilder.add_stream]

theorem add_file_eq (b : MultipartBuilder)
    (openFile : Path → Except IOError (List Char))
    (guess : Path → Option (List Char)) (n : List Char) (p : Path) :
    b.add_file openFile guess n p =
      b.add_stream (openFile p) n p.fileNameOpt
        (some ((guess p).getD octetStream)) := by
  cases h : openFile p <;>
    simp [MultipartBuilder.add_file, MultipartBuilder.add_stream,
      mime_filename, h]

theorem finish_eq (b : MultipartBuilder) :
    b.finish =
      .ok (ctString b.boundary,
        b.inner ++ (if b.data_written then crlf else []) ++
          delimDashes ++ b.boundary ++ "--\r\n".data) := by
  obtain ⟨bo, i, dw⟩ := b
  cases dw <;> simp [MultipartBuilder.finish, ctString, List.append_assoc]

theorem runAdds_ok (fs : List Field) :
    ∀ b b2 : MultipartBuilder, runAdds b fs = .ok b2 →
      b2.boundary = b.boundary ∧
      b2.data_written = (b.data_written || !fs.isEmpty) ∧
      b2.inner = b.inner ++ joinFrom b.data_written b.boundary fs := by
  induction fs with
  | nil =>
    intro b b2 h
    simp only [runAdds, Except.ok.injEq] at h
    subst h
    simp [joinFrom]
  | cons f fs ih =>
    intro b b2 h
    cases f with
    | text n t =>
      simp only [runAdds, addField, add_text_eq] at h
      obtain ⟨h1, h2, h3⟩ := ih _ _ h
      refine ⟨by simpa using h1, by simp [h2], ?_⟩
      simp only [h3, h1] at h3 ⊢
      simp [joinFrom, fieldChunk, Field.headerCore, Field.contentOf,
        List.append_assoc]
    | stream d n fn ct =>
      cases d with
      | error e =>
        simp only [runAdds, addField, add_stream_error_eq] at h
        exact Except.noConfusion h
      | ok dta =>
        simp only [runAdds, addField, add_stream_ok_eq] at h
        obtain ⟨h1, h2, h3⟩ := ih _ _ h
        refine ⟨by simpa using h1, by simp [h2], ?_⟩
        simp only [h3, h1] at h3 ⊢
        simp [joinFrom, fieldChunk, Field.headerCore, Field.contentOf,
          Except.toOption, List.append_assoc]

theorem joinFrom_true_eq (bd : List Char) (fs : List Field) :
    joinFrom true bd fs =
      if fs.isEmpty then [] else crlf ++ sepJoin crlf (fs.map (fieldChunk bd)) := by
  induction fs with
  | nil => simp [joinFrom]
  | cons f fs ih =>
    cases fs with
    | nil => simp [joinFrom, sepJoin]
    | cons g gs =>
      rw [joinFrom, ih]
      simp [sepJoin, List.append_assoc]

theorem joinFrom_false_eq (bd : List Char) (fs : List Field) :
    joinFrom false bd fs = sepJoin crlf (fs.map (fieldChunk bd)) := by
  cases fs with
  | nil => simp [joinFrom, sepJoin]
  | cons f fs =>
    rw [joinFrom, joinFrom_true_eq]
    cases fs with
    | nil => simp [sepJoin]
    | cons g gs => simp [sepJoin, List.append_assoc]

theorem joinFrom_true_tail (bd : List Char) (fs : List Field) :
    joinFrom true bd fs ++ crlf ++ delimDashes ++ bd ++ "--\r\n".data =
      crlf ++ delimDashes ++ bd ++ tailEnc bd fs := by
  induction fs with
  | nil => simp [joinFrom, tailEnc]
  | cons f fs ih =>
    have ih2 := ih
    simp only [List.append_assoc] at ih2
    rw [joinFrom, tailEnc, fieldChunk]
    simp only [List.append_assoc, if_true]
    rw [ih2]

theorem body_tailEnc_eq (bd : List Char) (fs : List Field) :
    joinFrom false bd fs ++ (if fs.isEmpty then [] else crlf) ++
      (delimDashes ++ bd ++ "--\r\n".data) =
      delimDashes ++ bd ++ tailEnc bd fs := by
  cases fs with
  | nil => simp [joinFrom, tailEnc]
  | cons f fs =>
    have h := joinFrom_true_tail bd fs
    simp only [List.append_assoc] at h
    rw [joinFrom, tailEnc, fieldChunk]
    simp only [List.isEmpty_cons, if_neg, List.append_assoc, if_false,
      Bool.false_eq_true, not_false_eq_true]
    rw [h]
    simp

/-! ### Facts about the decoder -/

theorem isPrefixOf_shorten :
    ∀ (p xs ys : List Char), p.length ≤ xs.length →
      p.isPrefixOf (xs ++ ys) = true → p.isPrefixOf xs = true
  | [], _, _, _, _ => by simp [List.isPrefixOf]
  | a :: p, [], ys, hle, h => by simp at hle
  | a :: p, x :: xs, ys, hle, h => by
    simp only [List.cons_append, List.isPrefixOf, Bool.and_eq_true] at h ⊢
    exact ⟨h.1, isPrefixOf_shorten p xs ys (by simpa using hle) h.2⟩

theorem extractUpTo_pos (sep : List Char) (c : Char) (cs : List Char)
    (hpre : sep.isPrefixOf (c :: cs) = true) :
    extractUpTo sep (c :: cs) = some ([], (c :: cs).drop sep.length) := by
  rw [extractUpTo, if_pos hpre]

theorem extractUpTo_neg (sep : List Char) (c : Char) (cs : List Char)
    (hneg : sep.isPrefixOf (c :: cs) = false) :
    extractUpTo sep (c :: cs) =
      match extractUpTo sep cs with
      | some pr => some (c :: pr.1, pr.2)
      | none => none := by
  rw [extractUpTo, if_neg (by simp [hneg])]

theorem extractUpTo_append (sep : List Char) :
    ∀ (x rest : List Char), extractUpTo sep (x ++ sep) = some (x, []) →
      extractUpTo sep (x ++ (sep ++ rest)) = some (x, rest) := by
  intro x
  induction x with
  | nil =>
    intro rest h
    cases sep with
    | nil =>
      cases rest with
      | nil => simp [extractUpTo]
      | cons c cs => simp [extractUpTo, List.isPrefixOf]
    | cons s ss =>
      simp only [List.nil_append, List.cons_append]
      have hpre : (s :: ss).isPrefixOf (s :: (ss ++ rest)) = true := by
        have : s :: (ss ++ rest) = (s :: ss) ++ rest := rfl
        rw [this]
        simp
      rw [extractUpTo_pos (s :: ss) s (ss ++ rest) hpre]
      simp [List.length_cons, List.drop_succ_cons, List.drop_left]
  | cons a as ih =>
    intro rest h
    simp only [List.cons_append] at h ⊢
    cases hpre : sep.isPrefixOf (a :: (as ++ sep)) with
    | true =>
      rw [extractUpTo_pos sep a (as ++ sep) hpre] at h
      simp at h
    | false =>
      rw [extractUpTo_neg sep a (as ++ sep) hpre] at h
      have hrec : extractUpTo sep (as ++ sep) = some (as, []) := by
        cases hr : extractUpTo sep (as ++ sep) with
        | none => rw [hr] at h; exact Option.noConfusion h
        | some pr =>
          obtain ⟨p1, p2⟩ := pr
          rw [hr] at h
          simp at h
          rw [h.1, h.2]

      have hpre2 : sep.isPrefixOf (a :: (as ++ (sep ++ rest))) = false := by
        cases hp2 : sep.isPrefixOf (a :: (as ++ (sep ++ rest))) with
        | false => rfl
        | true =>
          have hsh : sep.isPrefixOf (a :: (as ++ sep)) = true := by
            have hle : sep.length ≤ (a :: (as ++ sep)).length := by
              simp [List.length_append]
              omega
            have hshape : (a :: (as ++ (sep ++ rest))) =
                (a :: (as ++ sep)) ++ rest := by
              simp [List.append_assoc]
            rw [hshape] at hp2
            exact isPrefixOf_shorten sep (a :: (as ++ sep)) rest hle hp2
          rw [hsh] at hpre
          exact Bool.noConfusion hpre
      rw [extractUpTo_neg sep a (as ++ (sep ++ rest)) hpre2, ih rest hrec]

theorem extractUpTo_hdr (x rest : List Char)
    (h : extractUpTo (crlf ++ crlf) (x ++ (crlf ++ crlf)) = some (x, [])) :
    extractUpTo (crlf ++ crlf) (x ++ (crlf ++ (crlf ++ rest))) = some (x, rest) := by
  have h2 := extractUpTo_append (crlf ++ crlf) x rest h
  simpa [List.append_assoc] using h2

theorem extractUpTo_content (bd x rest : List Char)
    (h : extractUpTo (crlf ++ delimDashes ++ bd)
      (x ++ (crlf ++ delimDashes ++ bd)) = some (x, [])) :
    extractUpTo (crlf ++ delimDashes ++ bd)
      (x ++ (crlf ++ (delimDashes ++ (bd ++ rest)))) = some (x, rest) := by
  have h2 := extractUpTo_append (crlf ++ delimDashes ++ bd) x rest h
  simpa [List.append_assoc] using h2

theorem parseParts_tailEnc (bd : List Char) :
    ∀ (fs : List Field) (fuel : Nat), (tailEnc bd fs).length < fuel →
      (∀ f ∈ fs, cleanField bd f) →
      parseParts bd fuel (tailEnc bd fs) = some (fs.map Field.contentOf) := by
  intro fs
  induction fs with
  | nil =>
    intro fuel hf hclean
    cases fuel with
    | zero => exact absurd hf (Nat.not_lt_zero _)
    | succ fuel => simp [tailEnc, parseParts]
  | cons f fs ih =>
    intro fuel hf hclean
    cases fuel with
    | zero => exact absurd hf (Nat.not_lt_zero _)
    | succ fuel =>
      obtain ⟨hh, hc⟩ := hclean f (by simp)
      rw [tailEnc, parseParts]
      have hne : crlf ++ f.headerCore ++ crlf ++ crlf ++ f.contentOf ++ crlf ++
          delimDashes ++ bd ++ tailEnc bd fs ≠ "--\r\n".data := by
        intro heq
        have hchar : ('\x0d' : Char) = '-' := by
          have h4 : "--\r\n".data = ['-', '-', '\x0d', '\n'] := rfl
          rw [h4] at heq
          simpa [crlf] using congrArg (fun l => l.headD ' ') heq
        exact absurd hchar (by decide)
      rw [if_neg hne]
      have hpre : crlf.isPrefixOf (crlf ++ f.headerCore ++ crlf ++ crlf ++
          f.contentOf ++ crlf ++ delimDashes ++ bd ++ tailEnc bd fs) = true := by
        simp [List.append_assoc]
      rw [if_pos hpre]
      have hdrop :
          (crlf ++ f.headerCore ++ crlf ++ crlf ++ f.contentOf ++ crlf ++
            delimDashes ++ bd ++ tailEnc bd fs).drop 2 =
          f.headerCore ++ (crlf ++ (crlf ++ (f.contentOf ++ (crlf ++
            (delimDashes ++ (bd ++ tailEnc bd fs)))))) := by
        simp [crlf, List.append_assoc]
      rw [hdrop]
      rw [extractUpTo_hdr f.headerCore _ hh]
      have hlen : (tailEnc bd fs).length < fuel := by
        rw [tailEnc] at hf
        simp only [List.length_append, List.length_cons] at hf
        have hc2 : crlf.length = 2 := rfl
        omega
      simp only [extractUpTo_content bd f.contentOf (tailEnc bd fs) hc,
        ih fuel hlen (fun g hg => hclean g (by simp [hg]))]
      simp

theorem runAdds_finish (bd : List Char) (fs : List Field) (b : MultipartBuilder)
    (h : runAdds (MultipartBuilder.new bd) fs = .ok b) :
    b.finish = .ok (ctString bd, delimDashes ++ bd ++ tailEnc bd fs) := by
  obtain ⟨h1, h2, h3⟩ := runAdds_ok fs _ _ h
  simp only [MultipartBuilder.new] at h1 h2 h3
  rw [finish_eq, h1, h2, h3]
  have hb := body_tailEnc_eq bd fs
  cases hfe : fs.isEmpty with
  | true =>
    rw [hfe] at hb
    simp only [Bool.false_or, hfe, if_true, if_false, Bool.not_true] at hb ⊢
    simp only [← List.append_assoc] at hb ⊢
    rw [← hb]
    simp [joinFrom_false_eq]
  | false =>
    rw [hfe] at hb
    simp only [Bool.false_or, hfe, if_true, if_false, Bool.not_false] at hb ⊢
    simp only [← List.append_assoc] at hb ⊢
    rw [← hb]
    simp [joinFrom_false_eq]

theorem decodeBody_tailEnc (bd : List Char) (fs : List Field)
    (hclean : ∀ f ∈ fs, cleanField bd f) :
    decodeBody bd (delimDashes ++ bd ++ tailEnc bd fs) =
      some (fs.map Field.contentOf) := by
  rw [decodeBody]
  have hshape : delimDashes ++ bd ++ tailEnc bd fs =
      (delimDashes ++ bd) ++ tailEnc bd fs := by
    simp [List.append_assoc]
  rw [if_pos (by rw [hshape]; simp)]
  rw [hshape, List.drop_left]
  apply parseParts_tailEnc bd fs _ _ hclean
  simp only [List.length_append]
  omega

/-! ### The claims -/

/-- **C1.** For every builder on which exactly one text field with name
`"msg"` and value `"hi"` has been added via `add_text`, `finish` succeeds
and the returned body is byte-for-byte
`--<dashes><boundary>\r\nContent-Disposition: form-data; name="msg"\r\n\r\nhi\r\n--<dashes><boundary>--\r\n`,
where `<dashes>` is the fixed dash-run of the delimiter lines (the 27-dash
run `ctDashes`, each delimiter line being `--` followed by it) and
`<boundary>` is the builder's boundary token.  In particular the field has
no filename attribute and no `Content-Type` line. -/
theorem multipart_c1_single_text_field (bd : List Char) :
    ∃ b : MultipartBuilder,
      (MultipartBuilder.new bd).add_text "msg".data "hi".data = .ok b ∧
      b.finish = .ok (ctString bd,
        "--".data ++ ctDashes ++ bd ++
          "\r\nContent-Disposition: form-data; name=\"msg\"\r\n\r\nhi\r\n--".data ++
          ctDashes ++ bd ++ "--\r\n".data) := by
  refine ⟨_, add_text_eq _ _ _, ?_⟩
  rw [finish_eq]
  have hA : ∀ t : List Char, delimDashes ++ t = "--".data ++ (ctDashes ++ t) :=
    fun t => rfl
  have hB : ∀ t : List Char,
      crlf ++ (dispLine "msg".data none ++ (crlf ++ (crlf ++ ("hi".data ++
        (crlf ++ ("--".data ++ (ctDashes ++ t))))))) =
      "\r\nContent-Disposition: form-data; name=\"msg\"\r\n\r\nhi\r\n--".data ++
        (ctDashes ++ t) := fun t => rfl
  simp only [MultipartBuilder.new, List.nil_append, List.append_assoc, if_true,
    if_false, Bool.false_eq_true, hA, hB]

/-- **C2 (counterexample).**  With the concrete boundary token `['0']`, the
body returned by `finish` on a fresh builder is the 29-dash delimiter
`delimDashes` followed by the token and `--\r\n` — and that is *not* equal
to the claimed `--` + 29 further dashes + token + `--\r\n` (31 dashes in
total before the token). -/
theorem multipart_c2_counterexample :
    (MultipartBuilder.new ['0']).finish =
      .ok (ctString ['0'], delimDashes ++ ['0'] ++ "--\r\n".data) ∧
    delimDashes ++ ['0'] ++ "--\r\n".data ≠
      "--".data ++ List.replicate 29 '-' ++ ['0'] ++ "--\r\n".data := by
  constructor
  · rw [finish_eq]
    rfl
  · decide

/-- **C2 (amended).** For every freshly constructed builder with zero fields
added, `finish` succeeds and the returned body is exactly two leading
dashes, then a run of **27** further dashes, then the boundary token, then
two trailing dashes and CRLF, and nothing else (so the full dash-run before
the token is 29 dashes, not 31). -/
theorem multipart_c2_empty_build (bd : List Char) :
    (MultipartBuilder.new bd).finish =
      .ok (ctString bd,
        "--".data ++ (List.replicate 27 '-' ++ (bd ++ "--\r\n".data))) ∧
    "--".data ++ List.replicate 27 '-' = List.replicate 29 '-' := by
  constructor
  · rw [finish_eq]
    have hA : ∀ t : List Char,
        delimDashes ++ t = "--".data ++ (List.replicate 27 '-' ++ t) :=
      fun t => rfl
    simp only [MultipartBuilder.new, List.nil_append, List.append_assoc,
      if_false, Bool.false_eq_true, hA]
  · decide

/-- **C9.** For every builder state and all name and text arguments,
`add_text` returns `Ok` (its `io::Result` error branch is unreachable: all
of its writes go to the in-memory byte buffer, which cannot fail); likewise
`finish` always returns `Ok`. -/
theorem multipart_c9_infallible (b : MultipartBuilder) (n t : List Char) :
    (∃ b2, b.add_text n t = .ok b2) ∧ ∃ ct body, b.finish = .ok (ct, body) :=
  ⟨⟨_, add_text_eq b n t⟩, _, _, finish_eq b⟩

theorem takeWhile_dashes (n : Nat) (c : Char) (cs rest : List Char)
    (hc : c.isDigit = true) :
    (List.replicate n '-' ++ (c :: (cs ++ rest))).takeWhile (fun x => x == '-') =
      List.replicate n '-' := by
  rw [List.takeWhile_append_of_pos (by simp)]
  rw [List.takeWhile_cons_of_neg]
  · simp
  · simp only [beq_iff_eq]
    intro h
    rw [h] at hc
    exact absurd hc (by decide)

/-- **C3.** For every finished build with a boundary token of the shape the
generator produces (29 digits), each delimiter line written into the body
(interior, by `write_boundary`, and closing, by `finish`) begins with a run
of exactly 29 dashes immediately followed by the boundary token, while the
boundary parameter embedded in the returned content-type string consists of
exactly 27 dashes followed by the same token; consequently the boundary
parameter embedded in the content-type string is a substring of every
delimiter line in the returned body. -/
theorem multipart_c3_dash_runs (bd : List Char) (hlen : bd.length = BOUNDARY_LEN)
    (hdig : ∀ c ∈ bd, c.isDigit) :
    (∀ b : MultipartBuilder, b.boundary = bd →
      b.write_boundary.inner = b.inner ++ (if b.data_written then crlf else []) ++
        (delimDashes ++ bd ++ crlf)) ∧
    (∀ b : MultipartBuilder, b.boundary = bd →
      b.finish = .ok (ctString bd,
        b.inner ++ (if b.data_written then crlf else []) ++
          (delimDashes ++ bd ++ "--\r\n".data))) ∧
    delimDashes = List.replicate 29 '-' ∧
    ctDashes = List.replicate 27 '-' ∧
    (delimDashes ++ bd ++ crlf).takeWhile (fun x => x == '-') =
      List.replicate 29 '-' ∧
    (delimDashes ++ bd ++ "--\r\n".data).takeWhile (fun x => x == '-') =
      List.replicate 29 '-' ∧
    (ctDashes ++ bd).takeWhile (fun x => x == '-') = List.replicate 27 '-' ∧
    (∃ pre post, delimDashes ++ bd ++ crlf = pre ++ (ctDashes ++ bd) ++ post) ∧
    (∃ pre post,
      delimDashes ++ bd ++ "--\r\n".data = pre ++ (ctDashes ++ bd) ++ post) := by
  obtain ⟨c, cs, rfl⟩ : ∃ c cs, bd = c :: cs := by
    cases bd with
    | nil => simp [BOUNDARY_LEN] at hlen
    | cons c cs => exact ⟨c, cs, rfl⟩
  have hc : c.isDigit = true := hdig c (by simp)
  have hA : ∀ t : List Char, delimDashes ++ t = "--".data ++ (ctDashes ++ t) :=
    fun t => rfl
  refine ⟨?_, ?_, by decide, by decide, ?_, ?_, ?_, ?_, ?_⟩
  · intro b hb
    rw [write_boundary_eq, hb]
    simp [List.append_assoc]
  · intro b hb
    rw [finish_eq, hb]
    simp [ctString, List.append_assoc]
  · have hdd : delimDashes = List.replicate 29 '-' := by decide
    rw [hdd]
    simp only [List.append_assoc, List.cons_append]
    exact takeWhile_dashes 29 c cs crlf hc
  · have hdd : delimDashes = List.replicate 29 '-' := by decide
    rw [hdd]
    simp only [List.append_assoc, List.cons_append]
    exact takeWhile_dashes 29 c cs "--\r\n".data hc
  · have hdd : ctDashes = List.replicate 27 '-' := by decide
    rw [hdd]
    have h2 := takeWhile_dashes 27 c cs [] hc
    simpa using h2
  · refine ⟨"--".data, crlf, ?_⟩
    simp only [List.append_assoc, hA]
  · refine ⟨"--".data, "--\r\n".data, ?_⟩
    simp only [List.append_assoc, hA]

/-- **C4.** For every sequence of successful field-adding calls followed by
`finish`: the body is the field chunks joined with exactly one CRLF before
each subsequent field's delimiter line and none before the first
(`sepJoin crlf`), and `finish` emits one CRLF immediately before the
closing delimiter iff at least one field was written; moreover `add_file`
is one of these field-adding calls, being `add_stream` on the opened file's
contents with the inferred content type. -/
theorem multipart_c4_crlf_separators (bd : List Char) (fs : List Field)
    (b : MultipartBuilder)
    (hrun : runAdds (MultipartBuilder.new bd) fs = .ok b) :
    b.finish = .ok (ctString bd,
      sepJoin crlf (fs.map (fieldChunk bd)) ++
        (if fs.isEmpty then [] else crlf) ++
        (delimDashes ++ bd ++ "--\r\n".data)) ∧
    ∀ (b2 : MultipartBuilder) (openF : Path → Except IOError (List Char))
      (guess : Path → Option (List Char)) (n : List Char) (p : Path),
      b2.add_file openF guess n p =
        b2.add_stream (openF p) n p.fileNameOpt
          (some ((guess p).getD octetStream)) := by
  constructor
  · rw [runAdds_finish bd fs b hrun, ← body_tailEnc_eq, joinFrom_false_eq]
  · intro b2 openF guess n p
    exact add_file_eq b2 openF guess n p

/-- **C5.** For every field: a field added via `add_text` emits no
`Content-Type` header line in its header block (its emission is exactly the
delimiter line, the `Content-Disposition` line, and the blank line), while
a field added via `add_stream` or `add_file` always emits exactly one
`Content-Type` line — equal to the explicitly supplied type for
`add_stream`, to the type inferred from the path for `add_file`, and to
`application/octet-stream` when `add_stream` is given no type or
`add_file`'s inference fails. -/
theorem multipart_c5_content_type_lines (b : MultipartBuilder) (n t d : List Char)
    (fn ct : Option (List Char)) (openF : Path → Except IOError (List Char))
    (guess : Path → Option (List Char)) (p : Path) :
    b.add_text n t =
      .ok { boundary := b.boundary, data_written := true,
            inner := b.inner ++ (if b.data_written then crlf else []) ++
              delimDashes ++ b.boundary ++ crlf ++ dispLine n none ++
              crlf ++ crlf ++ t } ∧
    b.add_stream (.ok d) n fn ct =
      .ok { boundary := b.boundary, data_written := true,
            inner := b.inner ++ (if b.data_written then crlf else []) ++
              delimDashes ++ b.boundary ++ crlf ++ dispLine n fn ++
              (crlf ++ "Content-Type: ".data ++ ct.getD octetStream) ++
              crlf ++ crlf ++ d } ∧
    b.add_file openF guess n p =
      (match openF p with
       | .error e => .error e
       | .ok d2 =>
         .ok { boundary := b.boundary, data_written := true,
               inner := b.inner ++ (if b.data_written then crlf else []) ++
                 delimDashes ++ b.boundary ++ crlf ++ dispLine n p.fileNameOpt ++
                 (crlf ++ "Content-Type: ".data ++ (guess p).getD octetStream) ++
                 crlf ++ crlf ++ d2 }) := by
  refine ⟨add_text_eq b n t, ?_, ?_⟩
  · rw [add_stream_ok_eq]
    simp [ctPart, List.append_assoc]
  · rw [add_file_eq]
    cases hop : openF p with
    | error e => rw [add_stream_error_eq]
    | ok d2 =>
      rw [add_stream_ok_eq]
      simp [ctPart, List.append_assoc]

/-- **C6.** Round-trip: for every sequence of successfully added fields
whose contents do not contain a delimiter line (and whose header data is
well-formed — no blank line inside a header block; malformed names and
filenames are declared caller responsibility by the spec, §4.3/§7),
splitting the body returned by `finish` on its delimiter lines and
stripping each part's header block reconstructs the original field
contents byte-for-byte, in the order the fields were added. -/
theorem multipart_c6_round_trip (bd : List Char) (fs : List Field)
    (b : MultipartBuilder) (ct body : List Char)
    (hrun : runAdds (MultipartBuilder.new bd) fs = .ok b)
    (hfin : b.finish = .ok (ct, body))
    (hclean : ∀ f ∈ fs, cleanField bd f) :
    decodeBody bd body = some (fs.map Field.contentOf) := by
  have h := runAdds_finish bd fs b hrun
  rw [hfin] at h
  simp only [Except.ok.injEq, Prod.mk.injEq] at h
  rw [h.2]
  exact decodeBody_tailEnc bd fs hclean

/-- **C7.** For every call to `add_file` or `add_stream` in which opening or
reading the byte source fails, the call returns the I/O error; the builder
is consumed and no body artifact, partial or complete, is returned to the
caller (the `Except.error` result carries no builder and no buffer); and
the first such failure terminates a sequential build with no retry. -/
theorem multipart_c7_io_failure (b : MultipartBuilder) (e : IOError)
    (n : List Char) (fn ct : Option (List Char))
    (guess : Path → Option (List Char)) (p : Path) (fs : List Field) :
    b.add_stream (.error e) n fn ct = .error e ∧
    b.add_file (fun _ => .error e) guess n p = .error e ∧
    runAdds b (Field.stream (.error e) n fn ct :: fs) = .error e := by
  refine ⟨add_stream_error_eq b e n fn ct, ?_, ?_⟩
  · rw [add_file_eq]
    exact add_stream_error_eq b e n p.fileNameOpt _
  · simp only [runAdds, addField, add_stream_error_eq]

/-- **C8.** Append-only invariant: for every successful `add_text`,
`add_stream`, `add_file`, or `finish` operation on a builder, the buffer
contents before the operation are a byte-for-byte prefix of the buffer
contents (or returned body) after the operation. -/
theorem multipart_c8_append_only (b b2 : MultipartBuilder) (n t : List Char)
    (s : Except IOError (List Char)) (fn ct : Option (List Char))
    (openF : Path → Except IOError (List Char))
    (guess : Path → Option (List Char)) (p : Path) (cts body : List Char) :
    (b.add_text n t = .ok b2 → b.inner <+: b2.inner) ∧
    (b.add_stream s n fn ct = .ok b2 → b.inner <+: b2.inner) ∧
    (b.add_file openF guess n p = .ok b2 → b.inner <+: b2.inner) ∧
    (b.finish = .ok (cts, body) → b.inner <+: body) := by
  refine ⟨?_, ?_, ?_, ?_⟩
  · intro h
    rw [add_text_eq] at h
    simp only [Except.ok.injEq] at h
    rw [← h]
    simp [List.append_assoc]
  · intro h
    cases s with
    | error e =>
      rw [add_stream_error_eq] at h
      exact Except.noConfusion h
    | ok d =>
      rw [add_stream_ok_eq] at h
      simp only [Except.ok.injEq] at h
      rw [← h]
      simp [List.append_assoc]
  · intro h
    rw [add_file_eq] at h
    cases hop : openF p with
    | error e =>
      rw [hop, add_stream_error_eq] at h
      exact Except.noConfusion h
    | ok d =>
      rw [hop, add_stream_ok_eq] at h
      simp only [Except.ok.injEq] at h
      rw [← h]
      simp [List.append_assoc]
  · intro h
    rw [finish_eq] at h
    simp only [Except.ok.injEq, Prod.mk.injEq] at h
    rw [← h.2]
    simp [List.append_assoc]

/-- **C10.** For every url and builder, `Request::multipart(url, builder)`
returns `Ok` iff `builder.finish()` returns `Ok` (equivalently, it errors
iff `finish` errors), and on success the resulting `Request` has method
`"POST"`, the given url, body equal to the byte buffer returned by
`finish`, and headers mapping `"Accept"` to `"*/*"` and `"Content-Type"`
to the content-type string returned by `finish`. -/
theorem multipart_c10_request (url : List Char) (builder : MultipartBuilder) :
    (∀ e : IOError,
      Request.multipart url builder = .error e ↔ builder.finish = .error e) ∧
    ∀ ct body, builder.finish = .ok (ct, body) →
      Request.multipart url builder =
        .ok { method := "POST".data, url := url, body := body,
              headers := headersOf
                [("Accept".data, "*/*".data), ("Content-Type".data, ct)] } ∧
      lookupHeader (headersOf
        [("Accept".data, "*/*".data), ("Content-Type".data, ct)])
        "Accept".data = some "*/*".data ∧
      lookupHeader (headersOf
        [("Accept".data, "*/*".data), ("Content-Type".data, ct)])
        "Content-Type".data = some ct := by
  have hk : ¬ ("Accept".data = "Content-Type".data) := by decide
  constructor
  · intro e
    rw [Request.multipart, finish_eq]
    simp
  · intro ct body h
    rw [finish_eq] at h
    simp only [Except.ok.injEq, Prod.mk.injEq] at h
    rw [Request.multipart, finish_eq]
    refine ⟨by simp [← h.1, ← h.2, Method.toStr, List.append_assoc], ?_, ?_⟩
    · simp [headersOf, insertHeader, lookupHeader, List.find?, hk]
    · simp [headersOf, insertHeader, lookupHeader, List.find?, hk,
        Ne.symm hk]

/-- Witness for C3 at a concrete 29-digit boundary token. -/
theorem multipart_c3_dash_runs_witness :
    (delimDashes ++ sampleBd29 ++ crlf).takeWhile (fun x => x == '-') =
      List.replicate 29 '-' :=
  (multipart_c3_dash_runs sampleBd29 (by decide) (by decide)).2.2.2.2.1

/-- Witness for C4 at a concrete two-field build. -/
theorem multipart_c4_crlf_separators_witness :
    sampleRunB.finish = .ok (ctString sampleBd,
      sepJoin crlf (sampleFields.map (fieldChunk sampleBd)) ++
        (if sampleFields.isEmpty then [] else crlf) ++
        (delimDashes ++ sampleBd ++ "--\r\n".data)) :=
  (multipart_c4_crlf_separators sampleBd sampleFields sampleRunB (by decide)).1

/-- Witness for C6 at a concrete two-field build. -/
theorem multipart_c6_round_trip_witness :
    decodeBody sampleBd sampleFin.2 = some (sampleFields.map Field.contentOf) :=
  multipart_c6_round_trip sampleBd sampleFields sampleRunB sampleFin.1
    sampleFin.2 (by decide) (by decide) (by decide)

/-- Witness for C8 at concrete operations of each of the four kinds. -/
theorem multipart_c8_append_only_witness :
    (MultipartBuilder.new sampleBd).inner <+: sampleTextB.inner ∧
    (MultipartBuilder.new sampleBd).inner <+: sampleStreamB.inner ∧
    (MultipartBuilder.new sampleBd).inner <+: sampleFileB.inner ∧
    (MultipartBuilder.new sampleBd).inner <+: sampleFin0.2 :=
  ⟨(multipart_c8_append_only (MultipartBuilder.new sampleBd) sampleTextB
      "a".data "b".data (.ok []) none none sampleOpen sampleGuess samplePath
      [] []).1 (by decide),
   (multipart_c8_append_only (MultipartBuilder.new sampleBd) sampleStreamB
      "s".data [] (.ok "D".data) none none sampleOpen sampleGuess samplePath
      [] []).2.1 (by decide),
   (multipart_c8_append_only (MultipartBuilder.new sampleBd) sampleFileB
      "g".data [] (.ok []) none none sampleOpen sampleGuess samplePath
      [] []).2.2.1 (by decide),
   (multipart_c8_append_only (MultipartBuilder.new sampleBd) sampleTextB
      [] [] (.ok []) none none sampleOpen sampleGuess samplePath
      sampleFin0.1 sampleFin0.2).2.2.2 (by decide)⟩

/-- Witness for C10 at a concrete url and builder. -/
theorem multipart_c10_request_witness :
    Request.multipart "u".data (MultipartBuilder.new sampleBd) =
      .ok { method := "POST".data, url := "u".data, body := sampleFin0.2,
            headers := headersOf
              [("Accept".data, "*/*".data),
               ("Content-Type".data, sampleFin0.1)] } ∧
    lookupHeader (headersOf
      [("Accept".data, "*/*".data), ("Content-Type".data, sampleFin0.1)])
      "Accept".data = some "*/*".data ∧
    lookupHeader (headersOf
      [("Accept".data, "*/*".data), ("Content-Type".data, sampleFin0.1)])
      "Content-Type".data = some sampleFin0.1 :=
  (multipart_c10_request "u".data (MultipartBuilder.new sampleBd)).2
    sampleFin0.1 sampleFin0.2 (by decide)

end Ehttp
